import Mathlib

/-!
Shallow embedding of the bigtime-analytics-agent repository's core logic:
the Query Gate (execute-operational-query tool) and the schema-indexing
pipeline (populate-embeddings script).  External collaborators (warehouse
driver, description store, embedding provider) are modelled as oracles
whose individual steps either return a value or throw, via `Except`.
-/

namespace BigTime

/-! ## Query Gate: execute-operational-query-tool -/

/-- `MAX_ROWS` constant from the tool module. -/
def MAX_ROWS : Nat := 500

/-- `QUERY_TIMEOUT_SEC` constant from the tool module. -/
def QUERY_TIMEOUT_SEC : Nat := 30

/-- The fixed denylist `DISALLOWED_OPERATIONS`. -/
def DISALLOWED_OPERATIONS : List String :=
  ["insert", "update", "delete", "drop", "create", "alter",
   "truncate", "grant", "revoke", "copy", "call", "do"]

/-- JS `String.prototype.toLowerCase` (ASCII range, which is all the
denylist and row-limit checks compare against). -/
def jsToLowerChar (c : Char) : Char :=
  if c.isUpper then Char.ofNat (c.toNat + 32) else c

/-- Lowercase a string character-wise. -/
def jsToLower (s : String) : String :=
  ⟨s.toList.map jsToLowerChar⟩

/-- JS `String.prototype.toUpperCase` (ASCII range). -/
def jsToUpperChar (c : Char) : Char :=
  if c.isLower then Char.ofNat (c.toNat - 32) else c

/-- Uppercase a string character-wise. -/
def jsToUpper (s : String) : String :=
  ⟨s.toList.map jsToUpperChar⟩

/-- JS `String.prototype.startsWith`. -/
def jsStartsWith (s pre : String) : Bool :=
  pre.toList.isPrefixOf s.toList

/-- JS `String.prototype.trim`: strip leading and trailing whitespace. -/
def jsTrim (s : String) : String :=
  ⟨((s.toList.dropWhile Char.isWhitespace).reverse.dropWhile Char.isWhitespace).reverse⟩

/-- JS `String.prototype.split` with a single-character separator. -/
def jsSplitAux (sep : Char) : List Char → List Char → List String
  | [], acc => [⟨acc.reverse⟩]
  | c :: rest, acc =>
    if c = sep then ⟨acc.reverse⟩ :: jsSplitAux sep rest []
    else jsSplitAux sep rest (c :: acc)

/-- JS `value.split(",")`. -/
def jsSplitComma (s : String) : List String :=
  jsSplitAux ',' s.toList []

/-- JavaScript regex word character: `[A-Za-z0-9_]`. -/
def isWordChar (c : Char) : Bool :=
  c.isAlpha || c.isDigit || c = '_'

/-- Does the word `w` match at the head of `s`, with `\b` boundaries on
both sides (`prev` is the character just before `s`, if any)? -/
def matchesWordHere (w : List Char) (prev : Option Char) (s : List Char) : Bool :=
  w.isPrefixOf s &&
  (match prev with
   | none => true
   | some c => !isWordChar c) &&
  (match s.drop w.length with
   | [] => true
   | c :: _ => !isWordChar c)

/-- Scan `s` for a whole-word occurrence of `w` (the JS regex
`new RegExp(String.raw{backslash}b...)` test, for purely alphabetic `w`). -/
def hasWholeWordAux (w : List Char) (prev : Option Char) : List Char → Bool
  | [] => matchesWordHere w prev []
  | c :: rest =>
    matchesWordHere w prev (c :: rest) || hasWholeWordAux w (some c) rest

/-- Whole-word, position-anywhere match of `w` in `s`. -/
def hasWholeWord (w : String) (s : String) : Bool :=
  hasWholeWordAux w.toList none s.toList

/-- `containsDisallowedOperation`: lowercase the query, return the first
denylisted keyword occurring as a whole word, uppercased; else null. -/
def containsDisallowedOperation (query : String) : Option String :=
  let normalizedQuery := jsToLower query
  (DISALLOWED_OPERATIONS.find? (fun operation =>
    hasWholeWord operation normalizedQuery)).map jsToUpper

/-- Contiguous-sublist test on character lists. -/
def charsInclude (sub : List Char) : List Char → Bool
  | [] => sub.isEmpty
  | c :: rest => sub.isPrefixOf (c :: rest) || charsInclude sub rest

/-- JS `String.prototype.includes`. -/
def strIncludes (s sub : String) : Bool :=
  charsInclude sub.toList s.toList

/-- JS `String.prototype.trimEnd`: strip trailing whitespace. -/
def jsTrimEnd (s : String) : String :=
  ⟨(s.toList.reverse.dropWhile Char.isWhitespace).reverse⟩

/-- `.replace(/;?{backslash}s*$/, "")` applied after `trimEnd`: strips at
most one trailing semicolon (no trailing whitespace remains). -/
def stripTrailingSemicolon (s : String) : String :=
  match s.toList.reverse with
  | ';' :: rest => ⟨rest.reverse⟩
  | _ => s

/-- `ensureRowLimit`: if the lowercased query contains "limit" or "fetch"
as a substring, return it unchanged; otherwise strip trailing whitespace
and one trailing semicolon and append ` LIMIT 500`. -/
def ensureRowLimit (sqlQuery : String) : String :=
  let normalizedQuery := jsToLower sqlQuery
  let hasRowLimit :=
    strIncludes normalizedQuery "limit" || strIncludes normalizedQuery "fetch"
  if hasRowLimit then sqlQuery
  else stripTrailingSemicolon (jsTrimEnd sqlQuery) ++ " LIMIT " ++ toString MAX_ROWS

/-- A result row: an order-preserving mapping of column name to value. -/
abbrev Row := List (String × String)

/-- The tool's output shape (the zod `outputSchema`): all data fields
optional, so discrimination is a property to prove, not a given. -/
structure QueryOutput where
  success : Bool
  rows : Option (List Row)
  rowCount : Option Nat
  error : Option String
deriving Repr, DecidableEq

/-- Oracle for the warehouse collaborator: each step of the driver either
returns or throws. `executeStatement` receives the final statement text. -/
structure Warehouse where
  connect : Except String Unit
  openSession : Except String Unit
  executeStatement : String → Except String Unit
  fetchAll : Except String (List Row)
  closeOperation : Except String Unit
  closeSession : Except String Unit
  closeClient : Except String Unit

/-- The body of the `try` block: connect, open session, execute the
statement, fetch all rows, close operation/session/client. -/
def runWarehouse (w : Warehouse) (stmt : String) : Except String (List Row) :=
  match w.connect with
  | .error e => .error e
  | .ok _ =>
  match w.openSession with
  | .error e => .error e
  | .ok _ =>
  match w.executeStatement stmt with
  | .error e => .error e
  | .ok _ =>
  match w.fetchAll with
  | .error e => .error e
  | .ok rawRows =>
  match w.closeOperation with
  | .error e => .error e
  | .ok _ =>
  match w.closeSession with
  | .error e => .error e
  | .ok _ =>
  match w.closeClient with
  | .error e => .error e
  | .ok _ => .ok rawRows

/-- `executeOperationalQueryTool.execute`: policy check, row-limit
rewrite, warehouse call, row truncation; every thrown error is caught and
mapped to a failure result (the catch-path `client.close()` is
best-effort and has no observable effect in this model). -/
def executeOperationalQuery (w : Warehouse) (sqlQuery : String) : QueryOutput :=
  match containsDisallowedOperation sqlQuery with
  | some disallowedOperation =>
    { success := false, rows := none, rowCount := none,
      error := some (disallowedOperation ++
        " operations are not allowed. Only read-only queries are permitted.") }
  | none =>
    let queryWithLimit := ensureRowLimit sqlQuery
    match runWarehouse w queryWithLimit with
    | .ok rawRows =>
      let rows := rawRows.take MAX_ROWS
      { success := true, rows := some rows, rowCount := some rows.length,
        error := none }
    | .error msg =>
      { success := false, rows := none, rowCount := none,
        error := some ("Query execution failed: " ++ msg) }

/-! ## Indexing pipeline: populate-embeddings script -/

/-- `ColumnInfo` from populate-embeddings. -/
structure ColumnInfo where
  columnName : String
  dataType : String
  isNullable : Bool
  isPrimaryKey : Bool
  isForeignKey : Bool
deriving Repr, DecidableEq

/-- `ForeignKeyInfo`. -/
structure ForeignKeyInfo where
  columnName : String
  referencedTable : String
  referencedColumn : String
deriving Repr, DecidableEq

/-- `EnumValue`. -/
structure EnumValue where
  columnName : String
  values : List String
deriving Repr, DecidableEq

/-- `TableMetadata`. -/
structure TableMetadata where
  tableName : String
  columns : List ColumnInfo
  primaryKeys : List String
  foreignKeys : List ForeignKeyInfo
  enumValues : List EnumValue
deriving Repr, DecidableEq

/-- `DescribeTableRow`: one row of a `DESCRIBE TABLE EXTENDED` dump. -/
structure DescribeTableRow where
  col_name : String
  data_type : String
deriving Repr, DecidableEq

/-- `TablePropertyRow`: one row of a `SHOW TBLPROPERTIES` dump. -/
structure TablePropertyRow where
  key : String
  value : String
deriving Repr, DecidableEq

/-- Build the `ColumnInfo` pushed by `getColumns` for a kept row
(`data_type || "string"` defaults a falsy i.e. empty type). -/
def mkColumnInfo (r : DescribeTableRow) : ColumnInfo :=
  { columnName := r.col_name
    dataType := if r.data_type = "" then "string" else r.data_type
    isNullable := true
    isPrimaryKey := false
    isForeignKey := false }

/-- The `getColumns` parsing loop over the already-fetched dump rows:
`if (!col_name || col_name.startsWith("#")) break;` (an empty `col_name`
is falsy, so it terminates just like the `#` sentinel), then
`if (col_name.trim() === "") continue;`, else push. -/
def getColumns : List DescribeTableRow → List ColumnInfo
  | [] => []
  | r :: rest =>
    if r.col_name = "" || jsStartsWith r.col_name "#" then []
    else if jsTrim r.col_name = "" then getColumns rest
    else mkColumnInfo r :: getColumns rest

/-- The `getPrimaryKeys` body: on a thrown catalog probe return `[]`
(internal try/catch); otherwise the first row keyed `primaryKey` or
`primary_key` yields its comma-split, trimmed value; else `[]`. -/
def getPrimaryKeys (probe : Except String (List TablePropertyRow)) : List String :=
  match probe with
  | .error _ => []
  | .ok result =>
    match result.find? (fun r => r.key = "primaryKey" || r.key = "primary_key") with
    | some r => (jsSplitComma r.value).map jsTrim
    | none => []

/-- Maximal run of word characters at the head of a character list. -/
def wordRun (s : List Char) : List Char × List Char :=
  (s.takeWhile isWordChar, s.dropWhile isWordChar)

/-- Match of the regex `({backslash}w+){backslash}s*->{backslash}s*({backslash}w+){backslash}.({backslash}w+)`
anchored at the head of `s` (greedy word runs need no backtracking since
word, space and punctuation characters are disjoint). -/
def fkMatchAt (s : List Char) : Option (String × String × String) :=
  let (g1, s1) := wordRun s
  if g1.isEmpty then none
  else
    match s1.dropWhile Char.isWhitespace with
    | '-' :: '>' :: s3 =>
      let (g2, s5) := wordRun (s3.dropWhile Char.isWhitespace)
      if g2.isEmpty then none
      else
        match s5 with
        | '.' :: s6 =>
          let (g3, _) := wordRun s6
          if g3.isEmpty then none
          else some (⟨g1⟩, ⟨g2⟩, ⟨g3⟩)
        | _ => none
    | _ => none

/-- Leftmost match of the foreign-key regex anywhere in the string
(JS `String.prototype.match` with an unanchored pattern). -/
def fkSearch : List Char → Option (String × String × String)
  | [] => none
  | c :: rest =>
    match fkMatchAt (c :: rest) with
    | some m => some m
    | none => fkSearch rest

/-- The `getForeignKeys` scan over dump rows: rows after the
`# Detailed Table Information` marker whose `col_name` mentions
`Foreign Key` contribute a triple when the regex matches `data_type`. -/
def fkScan (inDetailSection : Bool) : List DescribeTableRow → List ForeignKeyInfo
  | [] => []
  | r :: rest =>
    if r.col_name = "# Detailed Table Information" then fkScan true rest
    else if inDetailSection && strIncludes r.col_name "Foreign Key" then
      match fkSearch r.data_type.toList with
      | some (c, t, rc) =>
        { columnName := c, referencedTable := t, referencedColumn := rc } ::
          fkScan inDetailSection rest
      | none => fkScan inDetailSection rest
    else fkScan inDetailSection rest

/-- `getForeignKeys`: internal try/catch degrades a thrown probe to `[]`. -/
def getForeignKeys (probe : Except String (List DescribeTableRow)) : List ForeignKeyInfo :=
  match probe with
  | .error _ => []
  | .ok result => fkScan false result

/-- The `textTypes` list of `detectEnumValues`. -/
def textTypes : List String := ["string", "text", "varchar", "char"]

/-- The string ordering used by JS `values.sort()`: lexicographic by
character code (code-unit vs code-point differences beyond the BMP are
out of scope of this model). -/
def lexLe (a b : String) : Prop := a.toList ≤ b.toList

instance : DecidableRel lexLe := fun a b =>
  inferInstanceAs (Decidable (a.toList ≤ b.toList))

instance : IsTotal String lexLe := ⟨fun a b => le_total a.toList b.toList⟩

instance : IsTrans String lexLe := ⟨fun _ _ _ h1 h2 => le_trans h1 h2⟩

/-- The code's `values.sort()` on strings, modelled by insertion sort
under `lexLe` (stable, and agreeing with JS default sort on these
lists). -/
def sortStrings (l : List String) : List String :=
  l.insertionSort lexLe

/-- `detectEnumValues`: filter to text-typed candidate columns; for each,
probe distinct non-null values (per-column try/catch skips a throwing
probe); record a sorted `EnumValue` exactly when 2 ≤ count ≤ 10. -/
def detectEnumValues (probe : String → Except String (List (Option String)))
    (columns : List ColumnInfo) : List EnumValue :=
  (columns.filter (fun c => textTypes.contains (jsToLower c.dataType))).filterMap
    (fun column =>
      match probe column.columnName with
      | .error _ => none
      | .ok result =>
        let values := result.filterMap id
        if 2 ≤ values.length ∧ values.length ≤ 10 then
          some { columnName := column.columnName, values := sortStrings values }
        else none)

/-- Per-table oracle for the catalog/probe queries issued during
extraction.  `describeMain` backs the required `getColumns` listing,
`describeDetail` the separate `DESCRIBE` issued by `getForeignKeys`,
`tblProperties` the `SHOW TBLPROPERTIES` probe, and `distinctProbe` the
per-column distinct-value probe of `detectEnumValues`. -/
structure TableOracle where
  describeMain : Except String (List DescribeTableRow)
  describeDetail : Except String (List DescribeTableRow)
  tblProperties : Except String (List TablePropertyRow)
  distinctProbe : String → Except String (List (Option String))

/-- `extractTableMetadata`: the three catalog probes are joined
(`Promise.all`), so a thrown column listing fails the whole table while
the guarded probes have already degraded internally; then pk/fk flags are
written onto the columns and enum detection runs on the flagged columns. -/
def extractTableMetadata (o : TableOracle) (tableName : String) :
    Except String TableMetadata :=
  match o.describeMain with
  | .error e => .error e
  | .ok describeRows =>
    let columns0 := getColumns describeRows
    let primaryKeys := getPrimaryKeys o.tblProperties
    let foreignKeys := getForeignKeys o.describeDetail
    let columns := columns0.map (fun col =>
      { col with
          isPrimaryKey := primaryKeys.contains col.columnName
          isForeignKey := (foreignKeys.map (·.columnName)).contains col.columnName })
    let enumValues := detectEnumValues o.distinctProbe columns
    .ok { tableName, columns, primaryKeys, foreignKeys, enumValues }

/-- The constraint strings pushed for one column in `formatTableContent`:
`primary key`, `foreign key`, then `not null` only when the column is
non-nullable and not a primary key. -/
def columnConstraints (col : ColumnInfo) : List String :=
  (if col.isPrimaryKey then ["primary key"] else []) ++
  (if col.isForeignKey then ["foreign key"] else []) ++
  (if !col.isNullable && !col.isPrimaryKey then ["not null"] else [])

/-- One element of `columnDescriptions`: `name (type[, constraints])`. -/
def formatColumn (col : ColumnInfo) : String :=
  let constraints := columnConstraints col
  let suffix := if constraints.length > 0
    then ", " ++ String.intercalate ", " constraints else ""
  col.columnName ++ " (" ++ col.dataType ++ suffix ++ ")"

/-- The literal separator the source file places between a foreign key's
column and its referenced column (mojibake bytes preserved verbatim). -/
def fkArrow : String := "â†’"

/-- `formatTableContent`: header and Columns lines always; Foreign Keys,
Primary Keys and Sample Values lines only when non-empty; joined by
newlines. -/
def formatTableContent (metadata : TableMetadata) : String :=
  let columnDescriptions := metadata.columns.map formatColumn
  let baseLines := ["Table: " ++ metadata.tableName,
    "Columns: " ++ String.intercalate ", " columnDescriptions]
  let fkLines := if metadata.foreignKeys.length > 0 then
      ["Foreign Keys: " ++ String.intercalate ", "
        (metadata.foreignKeys.map (fun fk =>
          metadata.tableName ++ "." ++ fk.columnName ++ " " ++ fkArrow ++ " " ++
            fk.referencedTable ++ "." ++ fk.referencedColumn))]
    else []
  let pkLines := if metadata.primaryKeys.length > 0 then
      ["Primary Keys: " ++ String.intercalate ", " metadata.primaryKeys]
    else []
  let enumLines := if metadata.enumValues.length > 0 then
      ["Sample Values: " ++ String.intercalate "; "
        (metadata.enumValues.map (fun ev =>
          ev.columnName ++ " can be " ++ String.intercalate ", "
            (ev.values.map (fun v => "\x27" ++ v ++ "\x27"))))]
    else []
  String.intercalate "\n" (baseLines ++ fkLines ++ pkLines ++ enumLines)

/-- A persisted `NewOperationalSchemaEmbedding` record. -/
structure EmbeddingRecord where
  schemaDescription : String
  tableName : String
  embedding : List Int
deriving Repr, DecidableEq

/-- Oracle for one indexing run of `main`: connection and bootstrap steps,
the table enumeration, a per-table catalog oracle, and the embedding
provider. -/
structure IndexerEnv where
  whConnect : Except String Unit
  whOpenSession : Except String Unit
  dbCheck : Except String Unit
  dbClear : Except String Unit
  tables : Except String (List String)
  oracleFor : String → TableOracle
  embedVector : String → Except String (List Int)

/-- The sequential per-table loop of `main`: extract metadata, format it,
embed the text, accumulate a record; the first throw aborts the run. -/
def processTables (env : IndexerEnv) : List String → Except String (List EmbeddingRecord)
  | [] => .ok []
  | tableName :: rest =>
    match extractTableMetadata (env.oracleFor tableName) tableName with
    | .error e => .error e
    | .ok metadata =>
      match env.embedVector (formatTableContent metadata) with
      | .error e => .error e
      | .ok vec =>
        match processTables env rest with
        | .error e => .error e
        | .ok records =>
          .ok ({ schemaDescription := formatTableContent metadata,
                 tableName := tableName, embedding := vec } :: records)

/-- `main` as a store-state transformer: returns the final description
store contents and whether the run exited successfully.  The truncate
(`db.delete`) empties the store once connectivity is verified; the
bulk insert is a single all-or-nothing transaction, so a later throw
leaves the store as the truncate left it. -/
def runIndexer (env : IndexerEnv) (store0 : List EmbeddingRecord) :
    List EmbeddingRecord × Bool :=
  match env.whConnect with
  | .error _ => (store0, false)
  | .ok _ =>
    match env.whOpenSession with
    | .error _ => (store0, false)
    | .ok _ =>
      match env.dbCheck with
      | .error _ => (store0, false)
      | .ok _ =>
        match env.dbClear with
        | .error _ => (store0, false)
        | .ok _ =>
          match env.tables with
          | .error _ => ([], false)
          | .ok tableNames =>
            match processTables env tableNames with
            | .error _ => ([], false)
            | .ok records => (records, true)

/-! ## Concrete fixtures used by witnesses -/

/-- A warehouse oracle whose every step succeeds, returning two rows. -/
def wAllOk : Warehouse :=
  { connect := .ok (), openSession := .ok (),
    executeStatement := fun _ => .ok (),
    fetchAll := .ok [[("a", "1")], [("a", "2")]],
    closeOperation := .ok (), closeSession := .ok (), closeClient := .ok () }

/-- A per-table catalog oracle whose every probe succeeds. -/
def tableOracleOk : TableOracle :=
  { describeMain := .ok [{ col_name := "id", data_type := "bigint" }],
    describeDetail := .ok [], tblProperties := .ok [],
    distinctProbe := fun _ => .ok [] }

/-- An indexer environment over tables A, B, C with all steps succeeding. -/
def envAllOk : IndexerEnv :=
  { whConnect := .ok (), whOpenSession := .ok (), dbCheck := .ok (),
    dbClear := .ok (), tables := .ok ["A", "B", "C"],
    oracleFor := fun _ => tableOracleOk,
    embedVector := fun _ => .ok [0] }

/-- The dump rows refuting claim C5's reading of blank-line handling. -/
def c5Rows : List DescribeTableRow :=
  [{ col_name := "a", data_type := "int" },
   { col_name := "", data_type := "" },
   { col_name := "b", data_type := "int" },
   { col_name := "# Detailed Table Information", data_type := "" }]

/-! ## Helper lemmas -/

theorem runWarehouse_ok_fetchAll {w : Warehouse} {stmt : String} {raw : List Row}
    (h : runWarehouse w stmt = .ok raw) : w.fetchAll = .ok raw := by
  unfold runWarehouse at h
  cases hc : w.connect <;> rw [hc] at h
  · exact Except.noConfusion h
  cases hs : w.openSession <;> rw [hs] at h
  · exact Except.noConfusion h
  cases he : w.executeStatement stmt <;> rw [he] at h
  · exact Except.noConfusion h
  cases hf : w.fetchAll <;> rw [hf] at h
  · exact Except.noConfusion h
  cases h1 : w.closeOperation <;> rw [h1] at h
  · exact Except.noConfusion h
  cases h2 : w.closeSession <;> rw [h2] at h
  · exact Except.noConfusion h
  cases h3 : w.closeClient <;> rw [h3] at h
  · exact Except.noConfusion h
  exact h

/-! ## Claim theorems -/

/-- C1: any input containing a denylisted keyword as a whole word
(case-insensitively) makes the Query Gate return a failure naming the
offending keyword uppercased, with a result independent of the warehouse
oracle (no warehouse step is consulted); and any input with no
denylisted whole word makes `containsDisallowedOperation` return null. -/
theorem queryGate_denylist (q : String) (w : Warehouse) :
    ((∃ op ∈ DISALLOWED_OPERATIONS, hasWholeWord op (jsToLower q) = true) →
      ∃ op ∈ DISALLOWED_OPERATIONS, hasWholeWord op (jsToLower q) = true ∧
        containsDisallowedOperation q = some (jsToUpper op) ∧
        executeOperationalQuery w q =
          { success := false, rows := none, rowCount := none,
            error := some (jsToUpper op ++
              " operations are not allowed. Only read-only queries are permitted.") }) ∧
    ((∀ op ∈ DISALLOWED_OPERATIONS, hasWholeWord op (jsToLower q) = false) →
      containsDisallowedOperation q = none) := by
  constructor
  · rintro ⟨op, hop, hww⟩
    have hsome : (DISALLOWED_OPERATIONS.find? (fun o => hasWholeWord o (jsToLower q))).isSome := by
      rw [List.find?_isSome]
      exact ⟨op, hop, hww⟩
    obtain ⟨a, ha⟩ := Option.isSome_iff_exists.mp hsome
    have hc : containsDisallowedOperation q = some (jsToUpper a) := by
      simp only [containsDisallowedOperation]
      rw [ha]
      rfl
    have hp := @List.find?_some String (fun o => hasWholeWord o (jsToLower q)) a
      DISALLOWED_OPERATIONS ha
    refine ⟨a, List.mem_of_find?_eq_some ha, hp, hc, ?_⟩
    simp [executeOperationalQuery, hc]
  · intro hall
    simp only [containsDisallowedOperation]
    have : DISALLOWED_OPERATIONS.find? (fun o => hasWholeWord o (jsToLower q)) = none := by
      rw [List.find?_eq_none]
      intro x hx
      simp [hall x hx]
    rw [this]
    rfl

/-- C1 witness: `"Select * from T; DROP TABLE x"` contains a denylisted
whole word, and the gate rejects it naming `DROP`. -/
theorem queryGate_denylist_witness :
    (∃ op ∈ DISALLOWED_OPERATIONS,
        hasWholeWord op (jsToLower "Select * from T; DROP TABLE x") = true) ∧
    (∃ op ∈ DISALLOWED_OPERATIONS,
        hasWholeWord op (jsToLower "Select * from T; DROP TABLE x") = true ∧
        containsDisallowedOperation "Select * from T; DROP TABLE x" = some (jsToUpper op) ∧
        executeOperationalQuery wAllOk "Select * from T; DROP TABLE x" =
          { success := false, rows := none, rowCount := none,
            error := some (jsToUpper op ++
              " operations are not allowed. Only read-only queries are permitted.") }) :=
  ⟨by decide, (queryGate_denylist "Select * from T; DROP TABLE x" wAllOk).1 (by decide)⟩

/-- C2: `ensureRowLimit` appends ` LIMIT 500` to `SELECT * FROM orders`,
and leaves any query already containing `limit` or `fetch`
(case-insensitively, as a substring) completely unchanged — in
particular the executed statement for such inputs is the input itself. -/
theorem queryGate_rowLimitRewrite (q : String) :
    ensureRowLimit "SELECT * FROM orders" = "SELECT * FROM orders LIMIT 500" ∧
    ((strIncludes (jsToLower q) "limit" || strIncludes (jsToLower q) "fetch") = true →
      ensureRowLimit q = q) := by
  constructor
  · rfl
  · intro h
    simp [ensureRowLimit, h]

/-- C2 witness: `SELECT * FROM orders LIMIT 10;` contains `limit`, and
`ensureRowLimit` returns it unchanged (trailing semicolon included). -/
theorem queryGate_rowLimitRewrite_witness :
    (strIncludes (jsToLower "SELECT * FROM orders LIMIT 10;") "limit" ||
      strIncludes (jsToLower "SELECT * FROM orders LIMIT 10;") "fetch") = true ∧
    ensureRowLimit "SELECT * FROM orders LIMIT 10;" = "SELECT * FROM orders LIMIT 10;" :=
  ⟨by decide, (queryGate_rowLimitRewrite "SELECT * FROM orders LIMIT 10;").2 (by decide)⟩

/-- C3: for every input and every warehouse-oracle outcome the Query Gate
returns a discriminated result (the embedding is a total function, so it
never throws past its boundary): success results carry rows and a
matching rowCount and no error; failure results carry an error and no
rows or rowCount. -/
theorem queryGate_discriminatedResult (q : String) (w : Warehouse) :
    ((executeOperationalQuery w q).success = true →
      (∃ rs, (executeOperationalQuery w q).rows = some rs ∧
        (executeOperationalQuery w q).rowCount = some rs.length) ∧
      (executeOperationalQuery w q).error = none) ∧
    ((executeOperationalQuery w q).success = false →
      (executeOperationalQuery w q).rows = none ∧
      (executeOperationalQuery w q).rowCount = none ∧
      ∃ m, (executeOperationalQuery w q).error = some m) := by
  unfold executeOperationalQuery
  cases hd : containsDisallowedOperation q <;> simp
  cases hr : runWarehouse w (ensureRowLimit q) <;> simp

/-- C3 witness: instantiated at a failing warehouse, where the result is
a failure with an error and no rows. -/
theorem queryGate_discriminatedResult_witness :
    (executeOperationalQuery { wAllOk with fetchAll := .error "boom" } "SELECT 1").success = false →
      (executeOperationalQuery { wAllOk with fetchAll := .error "boom" } "SELECT 1").rows = none ∧
      (executeOperationalQuery { wAllOk with fetchAll := .error "boom" } "SELECT 1").rowCount = none ∧
      ∃ m, (executeOperationalQuery { wAllOk with fetchAll := .error "boom" } "SELECT 1").error = some m :=
  (queryGate_discriminatedResult "SELECT 1" { wAllOk with fetchAll := .error "boom" }).2

/-- C4: whenever the Query Gate succeeds, its rows are the first
`MAX_ROWS` (500) driver rows in driver order, its rowCount equals the
returned row count, and that count never exceeds 500, regardless of how
many rows the driver returned. -/
theorem queryGate_rowCap (q : String) (w : Warehouse)
    (h : (executeOperationalQuery w q).success = true) :
    ∃ raw, w.fetchAll = .ok raw ∧
      (executeOperationalQuery w q).rows = some (raw.take MAX_ROWS) ∧
      (executeOperationalQuery w q).rowCount = some ((raw.take MAX_ROWS).length) ∧
      (raw.take MAX_ROWS).length ≤ MAX_ROWS := by
  unfold executeOperationalQuery at h ⊢
  cases hd : containsDisallowedOperation q <;> simp only [hd] at h ⊢
  case some op => simp at h
  case none =>
    cases hr : runWarehouse w (ensureRowLimit q) <;> simp only [hr] at h ⊢
    case error e => simp at h
    case ok raw =>
      refine ⟨raw, runWarehouse_ok_fetchAll hr, by simp, by simp, ?_⟩
      simp only [List.length_take]
      omega

/-- C4 witness: a driver returning two rows yields a success whose rows
are those two rows and whose rowCount is 2 ≤ 500. -/
theorem queryGate_rowCap_witness :
    ∃ raw, wAllOk.fetchAll = .ok raw ∧
      (executeOperationalQuery wAllOk "SELECT 1").rows = some (raw.take MAX_ROWS) ∧
      (executeOperationalQuery wAllOk "SELECT 1").rowCount = some ((raw.take MAX_ROWS).length) ∧
      (raw.take MAX_ROWS).length ≤ MAX_ROWS :=
  queryGate_rowCap "SELECT 1" wAllOk (by decide)

/-- Characterization of the `getColumns` loop, shared by several proofs:
it keeps, in order, every row strictly before the first row whose
`col_name` is empty or starts with `#`, except the whitespace-only ones. -/
theorem getColumns_spec (rows : List DescribeTableRow) :
    getColumns rows =
      ((rows.takeWhile (fun r =>
          !(r.col_name = "" || jsStartsWith r.col_name "#"))).filter
        (fun r => !(jsTrim r.col_name = ""))).map mkColumnInfo := by
  induction rows with
  | nil => rfl
  | cons r rest ih =>
    simp only [getColumns, List.takeWhile_cons]
    by_cases hA : r.col_name = ""
    · simp [hA]
    · by_cases hB : jsStartsWith r.col_name "#" = true
      · simp [hA, hB]
      · by_cases hC : jsTrim r.col_name = ""
        · simp [hA, hB, hC, ih, List.filter_cons]
        · simp [hA, hB, hC, ih, List.filter_cons]

/-- C5 counterexample: in the dump `[a; blank; b; # sentinel]` the blank
(empty) `col_name` row terminates parsing, so column `b`, which sits
after the blank row and before the `#` sentinel, does NOT appear in the
returned column list — refuting the claim that blank rows are skipped
rather than treated as terminators. -/
theorem getColumns_blank_terminates :
    (getColumns c5Rows).map (·.columnName) = ["a"] ∧
    "b" ∉ (getColumns c5Rows).map (·.columnName) := by
  constructor
  · rfl
  · decide

/-- C5 (amended): `getColumns` collects one `ColumnInfo` per row until
the first row whose `col_name` is empty or starts with `#` — both
terminate parsing — while whitespace-only (nonempty) `col_name` rows
before that terminator are skipped, not treated as terminators: rows
after a whitespace-only row and before the terminator still appear. -/
theorem getColumns_sentinel_and_blank_handling (rows : List DescribeTableRow) :
    getColumns rows =
      ((rows.takeWhile (fun r =>
          !(r.col_name = "" || jsStartsWith r.col_name "#"))).filter
        (fun r => !(jsTrim r.col_name = ""))).map mkColumnInfo :=
  getColumns_spec rows

/-- C8: the formatter never emits the `not null` constraint string on a
column flagged primary-key, even when that column's `isNullable` flag is
false; such a column's constraint list starts with `primary key` instead
(`formatTableContent` renders each column through `columnConstraints`). -/
theorem formatter_pk_suppresses_notNull (col : ColumnInfo)
    (h : col.isPrimaryKey = true) :
    "not null" ∉ columnConstraints col ∧
    "primary key" ∈ columnConstraints col := by
  unfold columnConstraints
  rw [h]
  cases hn : col.isNullable <;> cases hf : col.isForeignKey <;> simp

/-- A non-nullable primary-key column fixture. -/
def pkIdCol : ColumnInfo :=
  { columnName := "id", dataType := "bigint",
    isNullable := false, isPrimaryKey := true, isForeignKey := false }

/-- C8 witness: a non-nullable primary-key column gets only the
`primary key` constraint. -/
theorem formatter_pk_suppresses_notNull_witness :
    "not null" ∉ columnConstraints pkIdCol ∧
    "primary key" ∈ columnConstraints pkIdCol :=
  formatter_pk_suppresses_notNull pkIdCol rfl

/-- Every output of `detectEnumValues` arises from a text-typed candidate
column whose probe succeeded with between 2 and 10 distinct non-null
values, and carries those values sorted. -/
theorem mem_detectEnumValues
    {probe : String → Except String (List (Option String))}
    {cols : List ColumnInfo} {ev : EnumValue}
    (h : ev ∈ detectEnumValues probe cols) :
    ∃ c ∈ cols, textTypes.contains (jsToLower c.dataType) = true ∧
      ev.columnName = c.columnName ∧
      ∃ rows, probe c.columnName = .ok rows ∧
        2 ≤ (rows.filterMap id).length ∧ (rows.filterMap id).length ≤ 10 ∧
        ev.values = sortStrings (rows.filterMap id) := by
  unfold detectEnumValues at h
  obtain ⟨c, hcmem, hfc⟩ := List.mem_filterMap.mp h
  obtain ⟨hcin, hctype⟩ := List.mem_filter.mp hcmem
  refine ⟨c, hcin, hctype, ?_⟩
  cases hp : probe c.columnName with
  | error e => rw [hp] at hfc; exact Option.noConfusion hfc
  | ok rows =>
    rw [hp] at hfc
    have hfc' : (if 2 ≤ (rows.filterMap id).length ∧ (rows.filterMap id).length ≤ 10
        then some { columnName := c.columnName,
                    values := sortStrings (rows.filterMap id) : EnumValue }
        else none) = some ev := hfc
    by_cases hlen : 2 ≤ (rows.filterMap id).length ∧ (rows.filterMap id).length ≤ 10
    · rw [if_pos hlen] at hfc'
      obtain rfl := Option.some.inj hfc'
      exact ⟨rfl, rows, rfl, hlen.1, hlen.2, rfl⟩
    · rw [if_neg hlen] at hfc'
      exact Option.noConfusion hfc'

/-- `sortStrings` output is sorted under the lexicographic order. -/
theorem sorted_sortStrings (l : List String) : List.Sorted lexLe (sortStrings l) :=
  List.sorted_insertionSort lexLe l

/-- C7: enum detection considers only text-typed columns
(string/text/varchar/char, case-insensitive), and records an `EnumValue`
exactly when the observed distinct non-null value count lies in [2,10]:
every recorded `EnumValue` comes from such a candidate and carries its
values sorted lexically (soundness); conversely every text-typed column
whose probe succeeds with an in-range count IS recorded, with its sorted
values (completeness); and, for column lists with distinct names, a
column of any other type, or a candidate whose observed count falls
outside [2,10], produces no `EnumValue`. -/
theorem enumDetection_bounds
    (probe : String → Except String (List (Option String)))
    (cols : List ColumnInfo) :
    (∀ ev ∈ detectEnumValues probe cols,
      List.Sorted lexLe ev.values ∧
      ∃ c ∈ cols, textTypes.contains (jsToLower c.dataType) = true ∧
        ev.columnName = c.columnName ∧
        ∃ rows, probe c.columnName = .ok rows ∧
          2 ≤ (rows.filterMap id).length ∧ (rows.filterMap id).length ≤ 10 ∧
          ev.values = sortStrings (rows.filterMap id)) ∧
    (∀ c ∈ cols, textTypes.contains (jsToLower c.dataType) = true →
      ∀ rows, probe c.columnName = .ok rows →
        2 ≤ (rows.filterMap id).length → (rows.filterMap id).length ≤ 10 →
        ∃ ev ∈ detectEnumValues probe cols,
          ev.columnName = c.columnName ∧
          ev.values = sortStrings (rows.filterMap id)) ∧
    ((cols.map (·.columnName)).Nodup →
      ∀ c ∈ cols,
        (textTypes.contains (jsToLower c.dataType) = false →
          ∀ ev ∈ detectEnumValues probe cols, ev.columnName ≠ c.columnName) ∧
        (∀ rows, probe c.columnName = .ok rows →
          ¬(2 ≤ (rows.filterMap id).length ∧ (rows.filterMap id).length ≤ 10) →
          ∀ ev ∈ detectEnumValues probe cols, ev.columnName ≠ c.columnName)) := by
  refine ⟨?_, ?_, ?_⟩
  · intro ev hev
    obtain ⟨c, hcin, htype, hname, rows, hp, h2, h10, hvals⟩ := mem_detectEnumValues hev
    exact ⟨hvals ▸ sorted_sortStrings _, c, hcin, htype, hname, rows, hp, h2, h10, hvals⟩
  · intro c hcin htype rows hp h2 h10
    refine ⟨{ columnName := c.columnName, values := sortStrings (rows.filterMap id) },
      ?_, rfl, rfl⟩
    unfold detectEnumValues
    apply List.mem_filterMap.mpr
    refine ⟨c, List.mem_filter.mpr ⟨hcin, htype⟩, ?_⟩
    simp only [hp]
    rw [if_pos ⟨h2, h10⟩]
  · intro hnodup c hcin
    have hinj := List.inj_on_of_nodup_map hnodup
    constructor
    · intro htype ev hev hnameeq
      obtain ⟨c', hc'in, htype', hname', _, _, _, _, _⟩ := mem_detectEnumValues hev
      have hcceq : c' = c := hinj hc'in hcin (by rw [← hname', hnameeq])
      rw [hcceq, htype] at htype'
      exact Bool.noConfusion htype'
    · intro rows hp hbad ev hev hnameeq
      obtain ⟨c', hc'in, _, hname', rows', hp', h2, h10, _⟩ := mem_detectEnumValues hev
      have hcceq : c' = c := hinj hc'in hcin (by rw [← hname', hnameeq])
      rw [hcceq, hp] at hp'
      obtain rfl := Except.ok.inj hp'
      exact hbad ⟨h2, h10⟩

/-- Probe fixture for the C7 witness: `status` observes 3 distinct
non-null values, `pair` exactly 2 (the lower edge), `deck` exactly 10
(the upper edge), `wide` 11 (just above the cap), and every other
column a single value (just below the floor). -/
def c7Probe (n : String) : Except String (List (Option String)) :=
  if n = "status" then .ok [some "b", none, some "a", some "c"]
  else if n = "pair" then .ok [some "y", some "x"]
  else if n = "deck" then
    .ok [some "j", some "i", some "h", some "g", some "f",
         some "e", some "d", some "c", some "b", some "a"]
  else if n = "wide" then
    .ok [some "k01", some "k02", some "k03", some "k04", some "k05", some "k06",
         some "k07", some "k08", some "k09", some "k10", some "k11"]
  else .ok [some "only"]

/-- Column fixture for the C7 witness: text columns observing 3, 2, 10,
11 and 1 distinct values, plus a non-text `int` column. -/
def c7Cols : List ColumnInfo :=
  [{ columnName := "status", dataType := "STRING",
     isNullable := true, isPrimaryKey := false, isForeignKey := false },
   { columnName := "qty", dataType := "int",
     isNullable := true, isPrimaryKey := false, isForeignKey := false },
   { columnName := "pair", dataType := "text",
     isNullable := true, isPrimaryKey := false, isForeignKey := false },
   { columnName := "deck", dataType := "char",
     isNullable := true, isPrimaryKey := false, isForeignKey := false },
   { columnName := "wide", dataType := "string",
     isNullable := true, isPrimaryKey := false, isForeignKey := false },
   { columnName := "level", dataType := "varchar",
     isNullable := true, isPrimaryKey := false, isForeignKey := false }]

/-- C7 witness: both acceptance edges are realized — `pair` (exactly 2
values) and `deck` (exactly 10) are recorded, with sorted values — while
the non-text `qty`, the 1-value `level` and the 11-value `wide` columns
are not; the full detector output is also computed, pinning membership
and order concretely.  All parts are obtained by instantiating the claim
theorem with its hypotheses discharged by computation. -/
theorem enumDetection_bounds_witness :
    (∃ ev ∈ detectEnumValues c7Probe c7Cols,
      ev.columnName = "pair" ∧ ev.values = ["x", "y"]) ∧
    (∃ ev ∈ detectEnumValues c7Probe c7Cols,
      ev.columnName = "deck" ∧
      ev.values = ["a", "b", "c", "d", "e", "f", "g", "h", "i", "j"]) ∧
    (∀ ev ∈ detectEnumValues c7Probe c7Cols, ev.columnName ≠ "qty") ∧
    (∀ ev ∈ detectEnumValues c7Probe c7Cols, ev.columnName ≠ "level") ∧
    (∀ ev ∈ detectEnumValues c7Probe c7Cols, ev.columnName ≠ "wide") ∧
    detectEnumValues c7Probe c7Cols =
      [{ columnName := "status", values := ["a", "b", "c"] },
       { columnName := "pair", values := ["x", "y"] },
       { columnName := "deck",
         values := ["a", "b", "c", "d", "e", "f", "g", "h", "i", "j"] }] := by
  refine ⟨?_, ?_, ?_, ?_, ?_, by decide⟩
  · obtain ⟨ev, hev, hname, hvals⟩ :=
      (enumDetection_bounds c7Probe c7Cols).2.1
        { columnName := "pair", dataType := "text",
          isNullable := true, isPrimaryKey := false, isForeignKey := false }
        (by decide) (by decide) [some "y", some "x"] (by rfl) (by decide) (by decide)
    exact ⟨ev, hev, hname, by rw [hvals]; decide⟩
  · obtain ⟨ev, hev, hname, hvals⟩ :=
      (enumDetection_bounds c7Probe c7Cols).2.1
        { columnName := "deck", dataType := "char",
          isNullable := true, isPrimaryKey := false, isForeignKey := false }
        (by decide) (by decide)
        [some "j", some "i", some "h", some "g", some "f",
         some "e", some "d", some "c", some "b", some "a"]
        (by rfl) (by decide) (by decide)
    exact ⟨ev, hev, hname, by rw [hvals]; decide⟩
  · exact ((enumDetection_bounds c7Probe c7Cols).2.2 (by decide)
      { columnName := "qty", dataType := "int",
        isNullable := true, isPrimaryKey := false, isForeignKey := false }
      (by decide)).1 (by decide)
  · exact ((enumDetection_bounds c7Probe c7Cols).2.2 (by decide)
      { columnName := "level", dataType := "varchar",
        isNullable := true, isPrimaryKey := false, isForeignKey := false }
      (by decide)).2 [some "only"] (by rfl) (by decide)
  · exact ((enumDetection_bounds c7Probe c7Cols).2.2 (by decide)
      { columnName := "wide", dataType := "string",
        isNullable := true, isPrimaryKey := false, isForeignKey := false }
      (by decide)).2
      [some "k01", some "k02", some "k03", some "k04", some "k05", some "k06",
       some "k07", some "k08", some "k09", some "k10", some "k11"]
      (by rfl) (by decide)

/-- A nullable column never receives the `not null` constraint string. -/
theorem notNull_not_in_constraints {c : ColumnInfo} (h : c.isNullable = true) :
    "not null" ∉ columnConstraints c := by
  unfold columnConstraints
  rw [h]
  cases c.isPrimaryKey <;> cases c.isForeignKey <;> simp

/-- C9: a thrown required column listing fails the whole table's
extraction with that error; otherwise extraction succeeds, with the
primary-key, foreign-key and enum signals each depending only on their
own probe — a thrown `SHOW TBLPROPERTIES` degrades primary keys to
empty, a thrown detail `DESCRIBE` degrades foreign keys to empty, and a
column whose distinct-value probe throws is skipped by enum detection —
while the other signals are unaffected. -/
theorem extractor_partial_failure_isolation (o : TableOracle) (t : String) :
    (∀ e, o.describeMain = .error e → extractTableMetadata o t = .error e) ∧
    (∀ rows, o.describeMain = .ok rows →
      ∃ md, extractTableMetadata o t = .ok md ∧
        md.tableName = t ∧
        md.primaryKeys = getPrimaryKeys o.tblProperties ∧
        md.foreignKeys = getForeignKeys o.describeDetail ∧
        md.columns = (getColumns rows).map (fun col =>
          { col with
              isPrimaryKey := (getPrimaryKeys o.tblProperties).contains col.columnName
              isForeignKey := ((getForeignKeys o.describeDetail).map
                (·.columnName)).contains col.columnName }) ∧
        md.enumValues = detectEnumValues o.distinctProbe md.columns ∧
        ((∃ e, o.tblProperties = .error e) → md.primaryKeys = []) ∧
        ((∃ e, o.describeDetail = .error e) → md.foreignKeys = []) ∧
        (∀ n, (∃ e, o.distinctProbe n = .error e) →
          ∀ ev ∈ md.enumValues, ev.columnName ≠ n)) := by
  constructor
  · intro e he
    simp [extractTableMetadata, he]
  · intro rows hr
    unfold extractTableMetadata
    rw [hr]
    refine ⟨_, rfl, rfl, rfl, rfl, rfl, rfl, ?_, ?_, ?_⟩
    · rintro ⟨e, he⟩
      rw [he]
      rfl
    · rintro ⟨e, he⟩
      rw [he]
      rfl
    · rintro n ⟨e, he⟩ ev hev hne
      obtain ⟨c', _, _, hname', rows', hp', _, _, _⟩ := mem_detectEnumValues hev
      rw [← hname', hne] at hp'
      rw [he] at hp'
      exact Except.noConfusion hp'

/-- A table oracle whose enrichment probes all throw but whose column
listing succeeds. -/
def c9Oracle : TableOracle :=
  { describeMain := .ok [{ col_name := "id", data_type := "bigint" },
                         { col_name := "status", data_type := "string" }],
    describeDetail := .error "fk probe failed",
    tblProperties := .error "pk probe failed",
    distinctProbe := fun _ => .error "enum probe failed" }

/-- C9 witness: with every enrichment probe throwing, extraction still
succeeds with empty primary keys, empty foreign keys, and no enum
values, keeping both listed columns. -/
theorem extractor_partial_failure_isolation_witness :
    ∃ md, extractTableMetadata c9Oracle "orders" = .ok md ∧
      md.tableName = "orders" ∧
      md.primaryKeys = [] ∧
      md.foreignKeys = [] ∧
      md.enumValues = [] ∧
      (md.columns.map (·.columnName)) = ["id", "status"] := by
  obtain ⟨md, hmd, hname, hpk, hfk, hcols, henum, hpkdeg, hfkdeg, hskip⟩ :=
    (extractor_partial_failure_isolation c9Oracle "orders").2 _ rfl
  refine ⟨md, hmd, hname, ?_, ?_, ?_, ?_⟩
  · exact hpkdeg ⟨"pk probe failed", rfl⟩
  · exact hfkdeg ⟨"fk probe failed", rfl⟩
  · rw [henum]
    have hall := hskip
    cases hres : detectEnumValues c9Oracle.distinctProbe md.columns with
    | nil => rfl
    | cons ev rest =>
      exfalso
      exact hskip ev.columnName ⟨"enum probe failed", rfl⟩ ev
        (henum ▸ hres ▸ List.mem_cons_self ev rest) rfl
  · rw [hcols]
    rfl

/-- C10: every `ColumnInfo` produced by `getColumns` has
`isNullable = true`; the pk/fk flag rewrite in `extractTableMetadata`
preserves this, so no column of an extracted `TableMetadata` can ever
receive the formatter's `not null` annotation — that branch of
`formatTableContent` is unreachable from extracted metadata. -/
theorem extracted_columns_always_nullable :
    (∀ rows : List DescribeTableRow, ∀ c ∈ getColumns rows, c.isNullable = true) ∧
    (∀ (o : TableOracle) (t : String) (md : TableMetadata),
      extractTableMetadata o t = .ok md →
      ∀ c ∈ md.columns, c.isNullable = true ∧ "not null" ∉ columnConstraints c) := by
  have base : ∀ rows : List DescribeTableRow, ∀ c ∈ getColumns rows,
      c.isNullable = true := by
    intro rows c hc
    rw [getColumns_spec] at hc
    obtain ⟨r, _, hr⟩ := List.mem_map.mp hc
    rw [← hr]
    rfl
  refine ⟨base, ?_⟩
  intro o t md hmd c hc
  unfold extractTableMetadata at hmd
  cases hdm : o.describeMain with
  | error e => rw [hdm] at hmd; exact Except.noConfusion hmd
  | ok rows =>
    rw [hdm] at hmd
    obtain rfl := Except.ok.inj hmd
    obtain ⟨c0, hc0, hceq⟩ := List.mem_map.mp hc
    have hnull : c.isNullable = true := by
      rw [← hceq]
      exact base rows c0 hc0
    exact ⟨hnull, notNull_not_in_constraints hnull⟩

/-- Extraction result fixture for the C10 witness. -/
def c10Md : TableMetadata :=
  { tableName := "t",
    columns := [{ columnName := "id", dataType := "bigint",
                  isNullable := true, isPrimaryKey := false, isForeignKey := false }],
    primaryKeys := [], foreignKeys := [], enumValues := [] }

/-- C10 witness: extraction over the all-succeeding oracle produces
`c10Md`, whose only column is nullable and carries no `not null`
constraint. -/
theorem extracted_columns_always_nullable_witness :
    extractTableMetadata tableOracleOk "t" = .ok c10Md ∧
    ∀ c ∈ c10Md.columns, c.isNullable = true ∧ "not null" ∉ columnConstraints c :=
  ⟨by rfl, extracted_columns_always_nullable.2 tableOracleOk "t" c10Md (by rfl)⟩

/-- If some table's required column listing throws, the sequential
per-table loop throws. -/
theorem processTables_error_of_describe_error (env : IndexerEnv) :
    ∀ ts : List String,
      (∃ t ∈ ts, ∃ e, (env.oracleFor t).describeMain = Except.error e) →
      ∃ msg, processTables env ts = .error msg := by
  intro ts
  induction ts with
  | nil =>
    rintro ⟨t, ht, _⟩
    exact absurd ht (List.not_mem_nil t)
  | cons t rest ih =>
    rintro ⟨t', ht', e, he⟩
    rcases List.mem_cons.mp ht' with heq | hrest
    · have hx : extractTableMetadata (env.oracleFor t) t = .error e := by
        rw [← heq] at *
        simp [extractTableMetadata, he]
      exact ⟨e, by simp [processTables, hx]⟩
    · cases hx : extractTableMetadata (env.oracleFor t) t with
      | error msg => exact ⟨msg, by simp [processTables, hx]⟩
      | ok md =>
        cases hv : env.embedVector (formatTableContent md) with
        | error msg => exact ⟨msg, by simp [processTables, hx, hv]⟩
        | ok v =>
          obtain ⟨msg, hmsg⟩ := ih ⟨t', hrest, e, he⟩
          exact ⟨msg, by simp [processTables, hx, hv, hmsg]⟩

/-- If every table's extraction and embedding succeed, the loop returns
one record per table, in order, whose `tableName`s are the table list. -/
theorem processTables_ok_of_all_ok (env : IndexerEnv) :
    ∀ ts : List String,
      (∀ t ∈ ts, ∃ md v, extractTableMetadata (env.oracleFor t) t = .ok md ∧
        env.embedVector (formatTableContent md) = .ok v) →
      ∃ recs, processTables env ts = .ok recs ∧
        recs.map (·.tableName) = ts := by
  intro ts
  induction ts with
  | nil => exact fun _ => ⟨[], rfl, rfl⟩
  | cons t rest ih =>
    intro hall
    obtain ⟨md, v, hx, hv⟩ := hall t (List.mem_cons_self t rest)
    obtain ⟨recs, hrecs, hmap⟩ := ih (fun u hu => hall u (List.mem_cons_of_mem t hu))
    refine ⟨{ schemaDescription := formatTableContent md, tableName := t,
              embedding := v } :: recs, ?_, ?_⟩
    · simp [processTables, hx, hv, hrecs]
    · simp [hmap]

/-- C6: once connectivity is verified and the truncate has run, a column
listing that throws for any table leaves the description store empty —
the all-or-nothing bulk-insert transaction is never reached, but the
truncate has already taken effect (the store is not rolled back to its
pre-run contents `store0`) — whereas a fully successful run commits
exactly one record per table name inside the single transaction. -/
theorem indexer_truncate_then_atomic_insert (env : IndexerEnv)
    (store0 : List EmbeddingRecord) (ts : List String)
    (hwc : env.whConnect = .ok ()) (hos : env.whOpenSession = .ok ())
    (hdb : env.dbCheck = .ok ()) (hcl : env.dbClear = .ok ())
    (hts : env.tables = .ok ts) :
    ((∃ t ∈ ts, ∃ e, (env.oracleFor t).describeMain = Except.error e) →
      runIndexer env store0 = ([], false)) ∧
    ((∀ t ∈ ts, ∃ md v, extractTableMetadata (env.oracleFor t) t = .ok md ∧
        env.embedVector (formatTableContent md) = .ok v) →
      ∃ recs, runIndexer env store0 = (recs, true) ∧
        recs.map (·.tableName) = ts ∧
        (ts.Nodup → ∀ n, (recs.map (·.tableName)).count n = if n ∈ ts then 1 else 0)) := by
  constructor
  · intro hfail
    obtain ⟨msg, hmsg⟩ := processTables_error_of_describe_error env ts hfail
    simp [runIndexer, hwc, hos, hdb, hcl, hts, hmsg]
  · intro hall
    obtain ⟨recs, hrecs, hmap⟩ := processTables_ok_of_all_ok env ts hall
    refine ⟨recs, by simp [runIndexer, hwc, hos, hdb, hcl, hts, hrecs], hmap, ?_⟩
    intro hnodup n
    rw [hmap]
    by_cases hmem : n ∈ ts
    · rw [if_pos hmem]
      exact List.count_eq_one_of_mem hnodup hmem
    · rw [if_neg hmem]
      exact List.count_eq_zero_of_not_mem hmem

/-- The C6 failure-scenario environment: table B's column listing
throws. -/
def envBFails : IndexerEnv :=
  { envAllOk with
      oracleFor := fun t =>
        if t = "B" then { tableOracleOk with describeMain := .error "listing failed" }
        else tableOracleOk }

/-- C6 witness: on tables `[A, B, C]`, a successful run over a non-empty
prior store ends with one record per table name; if table B's column
listing throws instead, the run ends with an empty store and a failure
exit, not the prior store contents. -/
theorem indexer_truncate_then_atomic_insert_witness :
    (∃ recs, runIndexer envAllOk [⟨"stale", "Z", [1]⟩] = (recs, true) ∧
      recs.map (·.tableName) = ["A", "B", "C"] ∧
      (["A", "B", "C"] : List String).Nodup ∧
      (recs.map (·.tableName)).count "B" = 1) ∧
    runIndexer envBFails [⟨"stale", "Z", [1]⟩] = ([], false) := by
  constructor
  · obtain ⟨recs, hrun, hmap, hcount⟩ :=
      (indexer_truncate_then_atomic_insert envAllOk [⟨"stale", "Z", [1]⟩]
        ["A", "B", "C"] rfl rfl rfl rfl rfl).2
        (by
          intro t ht
          exact ⟨{ c10Md with tableName := t }, [0], rfl, rfl⟩)
    refine ⟨recs, hrun, hmap, by decide, ?_⟩
    have hBmem : "B" ∈ (["A", "B", "C"] : List String) := by decide
    have := hcount (by decide) "B"
    rw [if_pos hBmem] at this
    exact this
  · exact (indexer_truncate_then_atomic_insert envBFails [⟨"stale", "Z", [1]⟩]
      ["A", "B", "C"] rfl rfl rfl rfl rfl).1
      ⟨"B", by decide, "listing failed", rfl⟩

end BigTime
